import Mathlib

/-!
Verification of the message-batching hooks of the repository
(`src/batchingMessages.js`, `src/useWebSocket.js`).

The development shallowly embeds the two hooks:

* `useBatchedMessages` keeps a mutable array `batchRef.current`, pushes every
  decoded websocket message onto it, and on every `setInterval` tick runs

    if (batchRef.current.length) {
      onBatchMessage(batchRef.current);
      batchRef.current = [];
    }

  The coalescer model below (`CState`, `step`, `run`) embeds exactly this
  flush: the callback is invoked with the current buffer first, and the fresh
  empty buffer is installed afterwards, so the replacement is skipped when the
  callback throws.  Messages are modelled as natural numbers (their payload is
  opaque to the hook).

* `useWebSocket` stores the socket in a ref, recreates it inside an effect
  with dependency list `[url, onMessage]`, closes the previous socket in the
  effect cleanup, and returns `socketRef.current` as captured during render,
  before the effect runs.  The adapter model (`WSState`, `renderWS`) embeds
  the React effect semantics: the effect body reruns exactly when the
  dependency pair changed, its cleanup (`socketRef.current.close()`) runs
  first, and the rendered return value is the ref content from before the
  effect.  Socket objects and callback references are identified by numeric
  ids; reference equality of callbacks is equality of ids.
-/

/-- State of the batching coalescer of `useBatchedMessages`.
`buffer` models `batchRef.current`; `delivered` records, in order, each
argument `onBatchMessage` was invoked with; `arrivals` is the ghost list of
every message the websocket callback ever pushed; `timerLive` records whether
the `setInterval` timer is still scheduled. -/
structure CState where
  buffer : List Nat
  delivered : List (List Nat)
  arrivals : List Nat
  timerLive : Bool
deriving DecidableEq, Repr

/-- The initial coalescer state: empty buffer (`useRef([])`), nothing yet
delivered, timer scheduled. -/
def Cinit : CState := { buffer := [], delivered := [], arrivals := [], timerLive := true }

/-- Events processed by the single-threaded event loop:
`recv m` is the websocket `onmessage` callback running
`batchRef.current.push(message)`; `tick th` is one execution of the
`setInterval` callback, where `th` says whether `onBatchMessage` throws during
that invocation; `stop` is the effect cleanup `clearInterval(interval)`. -/
inductive Ev where
  | recv (m : Nat)
  | tick (th : Bool)
  | stop
deriving DecidableEq, Repr

/-- One event-loop step.  The `tick` case embeds the source flush verbatim:
nothing happens when the timer was cleared or the buffer is empty
(`if (batchRef.current.length)`); otherwise `onBatchMessage` is invoked with
the current buffer, and the reassignment `batchRef.current = []` executes only
when the callback returns normally — a thrown exception skips it and leaves
the interval scheduled (an exception in a `setInterval` callback does not
cancel the interval). -/
def step : Ev → CState → CState
  | Ev.recv m, s => { s with buffer := s.buffer ++ [m], arrivals := s.arrivals ++ [m] }
  | Ev.stop, s => { s with timerLive := false }
  | Ev.tick th, s =>
    if s.timerLive = false then s
    else if s.buffer = [] then s
    else if th then { s with delivered := s.delivered ++ [s.buffer] }
    else { s with delivered := s.delivered ++ [s.buffer], buffer := [] }

/-- Run a finite sequence of event-loop events. -/
def run : List Ev → CState → CState
  | [], s => s
  | e :: evs, s => run evs (step e s)

/-- Deliver the messages `ms` one by one through the websocket callback. -/
def recvAll (ms : List Nat) (s : CState) : CState := run (ms.map Ev.recv) s

/-- An event on which the consumer callback throws. -/
def throwsEv : Ev → Bool
  | Ev.tick th => th
  | _ => false

/-- State of the `useWebSocket` connection adapter as far as frame handling is
concerned.  `openConn` is whether the underlying socket is open, `log` the
console log, `received` the list of decoded messages passed to `onMessage`
(in `useBatchedMessages` this is the list of pushes onto `batchRef.current`). -/
structure AdState where
  openConn : Bool
  log : List String
  received : List Nat
deriving DecidableEq, Repr

/-- One inbound frame through the handler
`socketRef.current.onmessage = (event) => onMessage(JSON.parse(event.data))`.
`decode` stands for `JSON.parse`: `none` models a parse that throws on a
malformed frame.  The handler wraps the parse in no try/catch and performs no
logging, so a malformed frame leaves the state unchanged: the exception
propagates uncaught, the browser neither closes the socket nor stops
delivering later `onmessage` events, and no log entry is written (the source
logs only on open and close). -/
def handleFrame (decode : String → Option Nat) (s : AdState) (f : String) : AdState :=
  if s.openConn = false then s
  else
    match decode f with
    | some m => { s with received := s.received ++ [m] }
    | none => s

/-- A concrete stand-in for `JSON.parse` used by witnesses: the frame "bad"
is malformed (the parse throws), every other frame decodes to its length. -/
def demoDecode (f : String) : Option Nat :=
  if f = "bad" then none else some f.length

/-- An adapter state just after a successful open, as produced by the
source's `onopen` handler (`console.log("Websocket connected!")`). -/
def adOpen : AdState :=
  { openConn := true, log := ["Websocket connected!"], received := [] }

/-- State of one `useWebSocket` hook instance.  `socket` is
`socketRef.current` holding the id of the current socket object; `deps` is
the dependency pair `[url, onMessage]` recorded by React for the effect
(callback references are numeric ids, reference equality is id equality);
`nextId` generates fresh socket ids; `closed` lists the ids of sockets whose
`close()` was called. -/
structure WSState where
  socket : Option Nat
  deps : Option (String × Nat)
  nextId : Nat
  closed : List Nat
deriving DecidableEq, Repr

/-- Hook state before the first render: `useRef(null)`, no effect has run. -/
def initWS : WSState := { socket := none, deps := none, nextId := 0, closed := [] }

/-- One render of the component calling `useWebSocket url cb`, with React's
effect semantics: the hook body returns `socketRef.current` as captured
during render, before effects run; after the render, if the dependency pair
`(url, cb)` differs from the recorded one, the previous effect's cleanup
`socketRef.current.close()` runs and then the effect body assigns
`socketRef.current = new WebSocket(url)`.  If the dependencies are unchanged
the effect does not re-run.  Returns the new state and the rendered value. -/
def renderWS (url : String) (cb : Nat) (s : WSState) : WSState × Option Nat :=
  if s.deps = some (url, cb) then (s, s.socket)
  else
    ({ socket := some s.nextId
     , deps := some (url, cb)
     , nextId := s.nextId + 1
     , closed := s.closed ++ s.socket.toList }, s.socket)

/-- Unmount: the effect cleanup `socketRef.current.close()` runs. -/
def unmountWS (s : WSState) : WSState :=
  { s with closed := s.closed ++ s.socket.toList }

/-- Boolean invariant of the `useWebSocket` model: the stored socket id was
allocated by the id counter, hence is below `nextId`. -/
def socketLtB (s : WSState) : Bool :=
  match s.socket with
  | none => true
  | some j => decide (j < s.nextId)

/-- State of one `useBatchedMessages` component instance: the persistent
`batchRef.current` buffer, the batches passed to `onBatchMessage`, the inner
`useWebSocket` hook state, the dependency pair `[batchInterval,
onBatchMessage]` of the interval effect, the current interval id captured by
that effect, the set of interval ids created by `setInterval` and not yet
cleared, and counters for fresh interval ids and fresh callback-reference
ids (the arrow function passed to `useWebSocket` is allocated anew on every
render). -/
structure BMState where
  buffer : List Nat
  delivered : List (List Nat)
  ws : WSState
  intervalDeps : Option (Nat × Nat)
  timer : Option Nat
  liveTimers : List Nat
  nextTimerId : Nat
  nextCbId : Nat
deriving DecidableEq, Repr

/-- Component state before the first render: `useRef([])`, no effects run. -/
def initBM : BMState :=
  { buffer := [], delivered := [], ws := initWS, intervalDeps := none
  , timer := none, liveTimers := [], nextTimerId := 0, nextCbId := 0 }

/-- Events in the life of one `useBatchedMessages` instance: a render with
props `(url, onBatch, intervalMs)` (`onBatch` is the reference id of the
`onBatchMessage` prop), an inbound decoded message, an interval tick with a
non-throwing consumer, and unmount. -/
inductive BEv where
  | render (url : String) (onBatch : Nat) (intervalMs : Nat)
  | recv (m : Nat)
  | tick
  | unmount
deriving DecidableEq, Repr

/-- One render of `useBatchedMessages`.  The hook body allocates a fresh
arrow `(message) => batchRef.current.push(message)` (a fresh reference id)
and renders the inner `useWebSocket url` with it; `batchRef` is untouched by
rendering.  After the render the interval effect re-runs exactly when its
dependency pair `(batchInterval, onBatchMessage)` changed: its cleanup
`clearInterval(interval)` clears the captured timer, then `setInterval`
allocates a fresh live timer. -/
def renderBM (url : String) (onBatch : Nat) (intervalMs : Nat) (s : BMState) : BMState :=
  let cbId := s.nextCbId
  let s1 := { s with ws := (renderWS url cbId s.ws).1, nextCbId := cbId + 1 }
  if s.intervalDeps = some (intervalMs, onBatch) then s1
  else
    let cleared :=
      match s.timer with
      | some t => s1.liveTimers.erase t
      | none => s1.liveTimers
    { s1 with intervalDeps := some (intervalMs, onBatch)
            , timer := some s.nextTimerId
            , liveTimers := cleared ++ [s.nextTimerId]
            , nextTimerId := s.nextTimerId + 1 }

/-- One event of a `useBatchedMessages` instance.  `recv` is delivery of a
decoded message through the current socket (a closed socket delivers
nothing); `tick` is one interval callback execution with a non-throwing
consumer, firing only while some interval is live; `unmount` runs both
effect cleanups: `socketRef.current.close()` and `clearInterval(interval)`. -/
def stepBM : BEv → BMState → BMState
  | BEv.render u ob iv, s => renderBM u ob iv s
  | BEv.recv m, s =>
    match s.ws.socket with
    | some k => if k ∈ s.ws.closed then s else { s with buffer := s.buffer ++ [m] }
    | none => s
  | BEv.tick, s =>
    if s.liveTimers = [] then s
    else if s.buffer = [] then s
    else { s with delivered := s.delivered ++ [s.buffer], buffer := [] }
  | BEv.unmount, s =>
    let cleared :=
      match s.timer with
      | some t => s.liveTimers.erase t
      | none => s.liveTimers
    { s with ws := unmountWS s.ws, liveTimers := cleared, timer := none }

/-- Run a finite sequence of component events. -/
def runBM : List BEv → BMState → BMState
  | [], s => s
  | e :: evs, s => runBM evs (stepBM e s)

/-- The live intervals are exactly the one captured by the current interval
effect (none before the first render or after unmount). -/
def timerOk (s : BMState) : Prop := s.liveTimers = s.timer.toList

/-- Boolean invariant of the component model: live timers match the captured
one, the captured timer id and the recorded callback-reference id are below
their counters, and the inner socket id is below its counter. -/
def bmInv (s : BMState) : Bool :=
  decide (s.liveTimers = s.timer.toList) &&
  (match s.timer with
   | none => true
   | some t => decide (t < s.nextTimerId)) &&
  (match s.ws.deps with
   | none => true
   | some p => decide (p.2 < s.nextCbId)) &&
  socketLtB s.ws

/-- A component state reached after one render, used to instantiate
hypotheses of the claim theorems at a concrete input. -/
def bmAfterRender : BMState := runBM [BEv.render "ws:a" 0 100] initBM

/-- A concrete coalescer state with one buffered message, used to instantiate
hypotheses of the coalescer claim theorems. -/
def cWit : CState := { buffer := [5], delivered := [], arrivals := [5], timerLive := true }

/-- A concrete `useWebSocket` hook state after a first render with url
"ws:a" and callback reference 0, used to instantiate claim hypotheses. -/
def wsA : WSState := { socket := some 0, deps := some ("ws:a", 0), nextId := 1, closed := [] }

lemma run_cons (e : Ev) (evs : List Ev) (s : CState) :
    run (e :: evs) s = run evs (step e s) := rfl

lemma recvAll_buffer (ms : List Nat) (s : CState) :
    (recvAll ms s).buffer = s.buffer ++ ms := by
  induction ms generalizing s with
  | nil => simp [recvAll, run]
  | cons m ms ih =>
    show (recvAll ms (step (Ev.recv m) s)).buffer = _
    rw [ih]
    simp [step]

lemma recvAll_delivered (ms : List Nat) (s : CState) :
    (recvAll ms s).delivered = s.delivered := by
  induction ms generalizing s with
  | nil => rfl
  | cons m ms ih =>
    show (recvAll ms (step (Ev.recv m) s)).delivered = _
    rw [ih]
    rfl

lemma recvAll_arrivals (ms : List Nat) (s : CState) :
    (recvAll ms s).arrivals = s.arrivals ++ ms := by
  induction ms generalizing s with
  | nil => simp [recvAll, run]
  | cons m ms ih =>
    show (recvAll ms (step (Ev.recv m) s)).arrivals = _
    rw [ih]
    simp [step]

lemma recvAll_timerLive (ms : List Nat) (s : CState) :
    (recvAll ms s).timerLive = s.timerLive := by
  induction ms generalizing s with
  | nil => rfl
  | cons m ms ih =>
    show (recvAll ms (step (Ev.recv m) s)).timerLive = _
    rw [ih]
    rfl

/-- A successful (non-throwing) flush on a live timer and non-empty buffer:
the buffer is handed to the consumer and replaced by a fresh empty one. -/
lemma step_tick_ok (s : CState) (ht : s.timerLive = true) (hb : s.buffer ≠ []) :
    step (Ev.tick false) s
      = { s with delivered := s.delivered ++ [s.buffer], buffer := [] } := by
  simp [step, ht, hb]

/-- A throwing flush on a live timer and non-empty buffer: the consumer is
invoked with the buffer, but the replacement is skipped. -/
lemma step_tick_throw (s : CState) (ht : s.timerLive = true) (hb : s.buffer ≠ []) :
    step (Ev.tick true) s = { s with delivered := s.delivered ++ [s.buffer] } := by
  simp [step, ht, hb]

/-- The partition invariant: the concatenation of all delivered batches,
followed by the live buffer, is exactly the arrival sequence.  One step with a
non-throwing event preserves it. -/
lemma partition_step (e : Ev) (s : CState) (he : throwsEv e = false)
    (hs : s.delivered.flatten ++ s.buffer = s.arrivals) :
    (step e s).delivered.flatten ++ (step e s).buffer = (step e s).arrivals := by
  cases e with
  | recv m =>
    simp only [step]
    rw [← List.append_assoc, hs]
  | stop => exact hs
  | tick th =>
    simp only [throwsEv] at he
    subst he
    by_cases h1 : s.timerLive = false
    · have h : step (Ev.tick false) s = s := by simp [step, h1]
      rw [h]
      exact hs
    · by_cases h2 : s.buffer = []
      · have h : step (Ev.tick false) s = s := by simp [step, h1, h2]
        rw [h]
        exact hs
      · have h1t : s.timerLive = true := by simpa using h1
        rw [step_tick_ok s h1t h2]
        simp only [List.flatten_append]
        simpa using hs

lemma partition_run (evs : List Ev) (s : CState)
    (h : evs.all (fun e => !throwsEv e) = true)
    (hs : s.delivered.flatten ++ s.buffer = s.arrivals) :
    (run evs s).delivered.flatten ++ (run evs s).buffer = (run evs s).arrivals := by
  induction evs generalizing s with
  | nil => exact hs
  | cons e evs ih =>
    simp only [List.all_cons, Bool.and_eq_true, Bool.not_eq_true'] at h
    exact ih (step e s) (by simpa using h.2) (partition_step e s h.1 hs)

/-- Every batch a run ever delivers is non-empty; one-step version. -/
lemma nonempty_step (e : Ev) (s : CState)
    (hs : s.delivered.all (fun b => !b.isEmpty) = true) :
    (step e s).delivered.all (fun b => !b.isEmpty) = true := by
  cases e with
  | recv m => exact hs
  | stop => exact hs
  | tick th =>
    by_cases h1 : s.timerLive = false
    · have h : step (Ev.tick th) s = s := by simp [step, h1]
      rw [h]
      exact hs
    · by_cases h2 : s.buffer = []
      · have h : step (Ev.tick th) s = s := by simp [step, h1, h2]
        rw [h]
        exact hs
      · have h1t : s.timerLive = true := by simpa using h1
        cases th
        · rw [step_tick_ok s h1t h2]
          simp [List.all_append, hs, List.isEmpty_iff, h2]
        · rw [step_tick_throw s h1t h2]
          simp [List.all_append, hs, List.isEmpty_iff, h2]

lemma nonempty_run (evs : List Ev) (s : CState)
    (hs : s.delivered.all (fun b => !b.isEmpty) = true) :
    (run evs s).delivered.all (fun b => !b.isEmpty) = true := by
  induction evs generalizing s with
  | nil => exact hs
  | cons e evs ih => exact ih (step e s) (nonempty_step e s hs)

lemma append_left_ne_nil (l1 l2 : List Nat) (h : l1 ≠ []) : l1 ++ l2 ≠ [] := by
  cases l1 with
  | nil => exact absurd rfl h
  | cons a l => simp

/-- Accumulating `ms` into an empty buffer and flushing with a live timer and
a non-throwing consumer delivers exactly `ms` and empties the buffer. -/
lemma flush_from_empty (s : CState) (ms : List Nat)
    (ht : s.timerLive = true) (hb : s.buffer = []) (hm : ms ≠ []) :
    step (Ev.tick false) (recvAll ms s)
      = { s with delivered := s.delivered ++ [ms], arrivals := s.arrivals ++ ms } := by
  have hbuf : (recvAll ms s).buffer = ms := by rw [recvAll_buffer, hb]; simp
  have htl : (recvAll ms s).timerLive = true := by rw [recvAll_timerLive]; exact ht
  have hne : (recvAll ms s).buffer ≠ [] := by rw [hbuf]; exact hm
  rw [step_tick_ok _ htl hne, hbuf, recvAll_delivered, recvAll_arrivals,
    recvAll_timerLive, ht, hb]

/-- Claim C1 counterexample.  The source flush is not an atomic
detach-and-replace: it runs `onBatchMessage(batchRef.current)` first and
assigns `batchRef.current = []` only afterwards, so when the consumer throws
the replacement is skipped.  Concretely: message `0` arrives, the tick at
which `onBatchMessage` throws delivers `[0]`, and the next tick delivers
`[0]` again — the message is duplicated, and the concatenation of delivered
batches differs from the arrival sequence. -/
theorem c1_counterexample :
    (run [Ev.recv 0, Ev.tick true, Ev.tick false] Cinit).delivered = [[0], [0]] ∧
    (run [Ev.recv 0, Ev.tick true, Ev.tick false] Cinit).arrivals = [0] ∧
    (run [Ev.recv 0, Ev.tick true, Ev.tick false] Cinit).delivered.flatten ≠
      (run [Ev.recv 0, Ev.tick true, Ev.tick false] Cinit).arrivals := by
  decide

/-- Claim C1 (amended): a flush on a non-empty buffer invokes the consumer
with the current buffer and installs the fresh empty buffer only after the
consumer returns normally.  After a normal-return flush the buffer is empty
and a message appended afterwards lands in the new buffer; when the consumer
throws, the old buffer stays installed (its contents will be delivered
again). -/
theorem c1_flush_replaces_after_normal_return (s : CState) (m : Nat)
    (ht : s.timerLive = true) (hb : s.buffer ≠ []) :
    (step (Ev.tick false) s).buffer = [] ∧
    (step (Ev.tick false) s).delivered = s.delivered ++ [s.buffer] ∧
    (step (Ev.recv m) (step (Ev.tick false) s)).buffer = [m] ∧
    (step (Ev.tick true) s).buffer = s.buffer ∧
    (step (Ev.tick true) s).delivered = s.delivered ++ [s.buffer] := by
  rw [step_tick_ok s ht hb, step_tick_throw s ht hb]
  exact ⟨rfl, rfl, by simp [step], rfl, rfl⟩

theorem c1_witness :
    (step (Ev.tick false) cWit).buffer = [] ∧
    (step (Ev.tick false) cWit).delivered = [[5]] ∧
    (step (Ev.recv 7) (step (Ev.tick false) cWit)).buffer = [7] ∧
    (step (Ev.tick true) cWit).buffer = [5] ∧
    (step (Ev.tick true) cWit).delivered = [[5]] :=
  c1_flush_replaces_after_normal_return cWit 7 rfl (by decide)

/-- Claim C2 counterexample.  With a tick at which `onBatchMessage` throws,
the delivered batches do not partition the received messages: message `1`
arrives once but occurs in two delivered batches, because the throwing flush
skipped `batchRef.current = []` and the next flush re-delivers the same
buffer (now also holding `2`). -/
theorem c2_counterexample :
    (run [Ev.recv 1, Ev.tick true, Ev.recv 2, Ev.tick false] Cinit).delivered
      = [[1], [1, 2]] ∧
    (run [Ev.recv 1, Ev.tick true, Ev.recv 2, Ev.tick false] Cinit).arrivals = [1, 2] ∧
    ((run [Ev.recv 1, Ev.tick true, Ev.recv 2, Ev.tick false] Cinit).delivered.flatten).count 1
      = 2 ∧
    ((run [Ev.recv 1, Ev.tick true, Ev.recv 2, Ev.tick false] Cinit).arrivals).count 1 = 1 := by
  decide

/-- Claim C2 (amended): for every event sequence in which no `onBatchMessage`
invocation throws, the delivered batches partition the received messages —
their concatenation followed by the live buffer equals the arrival sequence,
so every received message occurs in exactly one delivered batch once
flushed, and no batch is delivered twice. -/
theorem c2_partition_no_throw (evs : List Ev)
    (h : evs.all (fun e => !throwsEv e) = true) :
    (run evs Cinit).delivered.flatten ++ (run evs Cinit).buffer
      = (run evs Cinit).arrivals :=
  partition_run evs Cinit h rfl

theorem c2_witness :
    (run [Ev.recv 3, Ev.tick false, Ev.recv 4] Cinit).delivered.flatten
        ++ (run [Ev.recv 3, Ev.tick false, Ev.recv 4] Cinit).buffer
      = (run [Ev.recv 3, Ev.tick false, Ev.recv 4] Cinit).arrivals :=
  c2_partition_no_throw [Ev.recv 3, Ev.tick false, Ev.recv 4] (by decide)

/-- Claim C3: a throwing `onBatchMessage` does not cancel the interval (the
tick neither clears the timer nor is the assignment `clearInterval` ever
reached from the flush), and the next tick's flush delivers a batch
containing every message buffered since the throwing tick. -/
theorem c3_throw_keeps_timer (s : CState) (ms : List Nat)
    (ht : s.timerLive = true) (hb : s.buffer ≠ []) :
    (step (Ev.tick true) s).timerLive = true ∧
    (step (Ev.tick false) (recvAll ms (step (Ev.tick true) s))).delivered
      = (step (Ev.tick true) s).delivered ++ [s.buffer ++ ms] ∧
    ∀ m ∈ ms, m ∈ s.buffer ++ ms := by
  rw [step_tick_throw s ht hb]
  refine ⟨ht, ?_, fun m hmm => List.mem_append_right _ hmm⟩
  have hbuf :
      (recvAll ms { s with delivered := s.delivered ++ [s.buffer] }).buffer
        = s.buffer ++ ms := recvAll_buffer ms _
  have htl :
      (recvAll ms { s with delivered := s.delivered ++ [s.buffer] }).timerLive = true := by
    rw [recvAll_timerLive]; exact ht
  have hne :
      (recvAll ms { s with delivered := s.delivered ++ [s.buffer] }).buffer ≠ [] := by
    rw [hbuf]; exact append_left_ne_nil s.buffer ms hb
  rw [step_tick_ok _ htl hne, recvAll_delivered, hbuf]

theorem c3_witness :
    (step (Ev.tick true) cWit).timerLive = true ∧
    (step (Ev.tick false) (recvAll [9] (step (Ev.tick true) cWit))).delivered
      = (step (Ev.tick true) cWit).delivered ++ [[5, 9]] ∧
    ∀ m ∈ [9], m ∈ [5, 9] :=
  c3_throw_keeps_timer cWit [9] rfl (by decide)

/-- Claim C5: over every event sequence, every batch handed to
`onBatchMessage` is non-empty (the flush is guarded by
`if (batchRef.current.length)`), and a tick at which the buffer is empty
leaves the state — including the timer — completely unchanged. -/
theorem c5_nonempty_batches (evs : List Ev) (s : CState) (th : Bool)
    (h : s.buffer = []) :
    ((run evs Cinit).delivered.all (fun b => !b.isEmpty)) = true ∧
    step (Ev.tick th) s = s := by
  refine ⟨nonempty_run evs Cinit rfl, ?_⟩
  simp [step, h]

theorem c5_witness :
    ((run [Ev.recv 3, Ev.tick false] Cinit).delivered.all (fun b => !b.isEmpty)) = true ∧
    step (Ev.tick true) Cinit = Cinit :=
  c5_nonempty_batches [Ev.recv 3, Ev.tick false] Cinit true rfl

/-- Claim C6: starting from an empty buffer with a live timer, the messages
`ms1` appended within one interval are delivered by the next flush as exactly
one batch in arrival order, after which the buffer is empty; the following
interval's messages `ms2` form the next batch, and the arrival sequence is
the concatenation of the two batches in order, so every message of one batch
arrived no later than every message of the next. -/
theorem c6_exact_delivery (s : CState) (ms1 ms2 : List Nat)
    (ht : s.timerLive = true) (hb : s.buffer = []) (h1 : ms1 ≠ []) (h2 : ms2 ≠ []) :
    (step (Ev.tick false) (recvAll ms1 s)).delivered = s.delivered ++ [ms1] ∧
    (step (Ev.tick false) (recvAll ms1 s)).buffer = [] ∧
    (step (Ev.tick false) (recvAll ms2 (step (Ev.tick false) (recvAll ms1 s)))).delivered
      = s.delivered ++ [ms1] ++ [ms2] ∧
    (step (Ev.tick false) (recvAll ms2 (step (Ev.tick false) (recvAll ms1 s)))).buffer
      = [] ∧
    (step (Ev.tick false) (recvAll ms2 (step (Ev.tick false) (recvAll ms1 s)))).arrivals
      = s.arrivals ++ ms1 ++ ms2 := by
  have e1 := flush_from_empty s ms1 ht hb h1
  rw [e1]
  have e2 := flush_from_empty
    { s with delivered := s.delivered ++ [ms1], arrivals := s.arrivals ++ ms1 }
    ms2 ht hb h2
  rw [e2]
  exact ⟨rfl, hb, rfl, hb, rfl⟩

theorem c6_witness :
    (step (Ev.tick false) (recvAll [1, 2] Cinit)).delivered = [[1, 2]] ∧
    (step (Ev.tick false) (recvAll [1, 2] Cinit)).buffer = [] ∧
    (step (Ev.tick false) (recvAll [3] (step (Ev.tick false) (recvAll [1, 2] Cinit)))).delivered
      = [[1, 2], [3]] ∧
    (step (Ev.tick false) (recvAll [3] (step (Ev.tick false) (recvAll [1, 2] Cinit)))).buffer
      = [] ∧
    (step (Ev.tick false) (recvAll [3] (step (Ev.tick false) (recvAll [1, 2] Cinit)))).arrivals
      = [1, 2, 3] :=
  c6_exact_delivery Cinit [1, 2] [3] rfl rfl (by decide) (by decide)

/-- Claim C4 counterexample.  The `onmessage` handler of `useWebSocket` is
`(event) => onMessage(JSON.parse(event.data))` with no try/catch and no log
call: on the malformed frame "bad" the handler produces no message, but it
also writes nothing to the log — the claim's "dropped and logged" fails in
its logging half (the parse exception propagates uncaught). -/
theorem c4_counterexample :
    handleFrame demoDecode adOpen "bad" = adOpen ∧
    ¬ adOpen.log.length < (handleFrame demoDecode adOpen "bad").log.length := by
  decide

/-- Claim C4 (amended): a malformed inbound frame is dropped — no message is
produced, so it is absent from every batch — and the connection remains
open, the log is unchanged (the decode failure is NOT logged; the exception
propagates uncaught), and a subsequent well-formed frame is still decoded
and delivered to `onMessage`. -/
theorem c4_malformed_dropped_not_logged (decode : String → Option Nat) (s : AdState)
    (f g : String) (m : Nat)
    (hopen : s.openConn = true) (hf : decode f = none) (hg : decode g = some m) :
    handleFrame decode s f = s ∧
    (handleFrame decode s f).openConn = true ∧
    (handleFrame decode s f).log = s.log ∧
    (handleFrame decode s f).received = s.received ∧
    (handleFrame decode (handleFrame decode s f) g).received = s.received ++ [m] := by
  have h1 : handleFrame decode s f = s := by
    simp [handleFrame, hopen, hf]
  refine ⟨h1, by rw [h1, hopen], by rw [h1], by rw [h1], ?_⟩
  rw [h1]
  simp [handleFrame, hopen, hg]

theorem c4_witness :
    handleFrame demoDecode adOpen "bad" = adOpen ∧
    (handleFrame demoDecode adOpen "bad").openConn = true ∧
    (handleFrame demoDecode adOpen "bad").log = ["Websocket connected!"] ∧
    (handleFrame demoDecode adOpen "bad").received = [] ∧
    (handleFrame demoDecode (handleFrame demoDecode adOpen "bad") "ok").received = [2] :=
  c4_malformed_dropped_not_logged demoDecode adOpen "bad" "ok" 2 rfl (by decide) (by decide)

lemma renderBM_deps_eq (u : String) (ob iv : Nat) (s : BMState)
    (hd : s.intervalDeps = some (iv, ob)) :
    renderBM u ob iv s
      = { s with ws := (renderWS u s.nextCbId s.ws).1, nextCbId := s.nextCbId + 1 } := by
  simp [renderBM, hd]

lemma renderBM_deps_ne (u : String) (ob iv : Nat) (s : BMState)
    (hd : s.intervalDeps ≠ some (iv, ob)) :
    renderBM u ob iv s
      = { s with ws := (renderWS u s.nextCbId s.ws).1
               , nextCbId := s.nextCbId + 1
               , intervalDeps := some (iv, ob)
               , timer := some s.nextTimerId
               , liveTimers := (match s.timer with
                   | some t => s.liveTimers.erase t
                   | none => s.liveTimers) ++ [s.nextTimerId]
               , nextTimerId := s.nextTimerId + 1 } := by
  simp [renderBM, hd]

lemma timerOk_step (e : BEv) (s : BMState) (h : timerOk s) : timerOk (stepBM e s) := by
  cases e with
  | render u ob iv =>
    show timerOk (renderBM u ob iv s)
    by_cases hd : s.intervalDeps = some (iv, ob)
    · rw [renderBM_deps_eq u ob iv s hd]
      exact h
    · rw [renderBM_deps_ne u ob iv s hd]
      unfold timerOk at h ⊢
      cases htimer : s.timer with
      | none =>
        rw [htimer] at h
        simp only [Option.toList] at h
        simp [htimer, h]
      | some t =>
        rw [htimer] at h
        simp only [Option.toList] at h
        simp [htimer, h]
  | recv m =>
    unfold timerOk at h ⊢
    simp only [stepBM]
    cases hsock : s.ws.socket with
    | none => exact h
    | some k =>
      by_cases hk : k ∈ s.ws.closed
      · simpa [hk] using h
      · simpa [hk] using h
  | tick =>
    unfold timerOk at h ⊢
    simp only [stepBM]
    by_cases h1 : s.liveTimers = []
    · simpa [h1] using h
    · by_cases h2 : s.buffer = []
      · simpa [h1, h2] using h
      · simpa [h1, h2] using h
  | unmount =>
    unfold timerOk at h ⊢
    simp only [stepBM]
    cases htimer : s.timer with
    | none =>
      rw [htimer] at h
      simp only [Option.toList] at h
      simp [htimer, h]
    | some t =>
      rw [htimer] at h
      simp only [Option.toList] at h
      simp [htimer, h]

lemma timerOk_runBM (evs : List BEv) (s : BMState) (h : timerOk s) :
    timerOk (runBM evs s) := by
  induction evs generalizing s with
  | nil => exact h
  | cons e evs ih => exact ih (stepBM e s) (timerOk_step e s h)

lemma liveTimers_len (s : BMState) (h : timerOk s) : s.liveTimers.length ≤ 1 := by
  unfold timerOk at h
  rw [h]
  cases s.timer <;> simp [Option.toList]

lemma bmInv_timerOk (s : BMState) (h : bmInv s = true) : timerOk s := by
  unfold bmInv at h
  simp only [Bool.and_eq_true] at h
  have h2 : s.liveTimers = s.timer.toList := of_decide_eq_true h.1.1.1
  exact h2

lemma bmInv_timerLt (s : BMState) (t : Nat) (h : bmInv s = true)
    (ht : s.timer = some t) : t < s.nextTimerId := by
  unfold bmInv at h
  simp only [Bool.and_eq_true] at h
  have h2 := h.1.1.2
  rw [ht] at h2
  exact of_decide_eq_true h2

lemma bmInv_depsLt (s : BMState) (p : String × Nat) (h : bmInv s = true)
    (hd : s.ws.deps = some p) : p.2 < s.nextCbId := by
  unfold bmInv at h
  simp only [Bool.and_eq_true] at h
  have h2 := h.1.2
  rw [hd] at h2
  exact of_decide_eq_true h2

/-- Rendering with a callback reference freshly allocated this render (the
inline arrow of `useBatchedMessages`) always re-runs the socket effect:
the previous socket is closed and a new one is created. -/
lemma renderWS_fresh_cb_closes (u : String) (s : BMState) (k : Nat)
    (h : bmInv s = true) (hk : s.ws.socket = some k) :
    k ∈ (renderWS u s.nextCbId s.ws).1.closed ∧
    (renderWS u s.nextCbId s.ws).1.socket = some s.ws.nextId := by
  have hne : s.ws.deps ≠ some (u, s.nextCbId) := by
    cases hd : s.ws.deps with
    | none => simp
    | some p =>
      have hlt := bmInv_depsLt s p h hd
      intro hcontra
      have hp : p = (u, s.nextCbId) := Option.some.inj hcontra
      rw [hp] at hlt
      exact absurd hlt (lt_irrefl _)
  unfold renderWS
  rw [if_neg hne]
  exact ⟨by simp [hk], rfl⟩

/-- Claim C7: (a) over every event sequence, at most one interval timer is
live per component instance; (b) a re-render whose `[batchInterval,
onBatchMessage]` dependency pair changed clears the previously captured
timer and — because the socket effect's `onMessage` dependency is a fresh
arrow every render — also closes the previous socket, leaving again at most
one live timer; (c) unmount clears the timer and closes the socket. -/
theorem c7_cleanup_every_exit (evs : List BEv) (s : BMState) (u : String)
    (ob iv t k : Nat) (hinv : bmInv s = true) (ht : s.timer = some t)
    (hk : s.ws.socket = some k) (hch : s.intervalDeps ≠ some (iv, ob)) :
    (runBM evs initBM).liveTimers.length ≤ 1 ∧
    t ∉ (renderBM u ob iv s).liveTimers ∧
    k ∈ (renderBM u ob iv s).ws.closed ∧
    (renderBM u ob iv s).liveTimers.length ≤ 1 ∧
    (stepBM BEv.unmount s).liveTimers = [] ∧
    k ∈ (stepBM BEv.unmount s).ws.closed := by
  have hOk := bmInv_timerOk s hinv
  have hlt := bmInv_timerLt s t hinv ht
  have hlive : s.liveTimers = [t] := by
    unfold timerOk at hOk
    rw [hOk, ht]
    rfl
  refine ⟨?_, ?_, ?_, ?_, ?_, ?_⟩
  · exact liveTimers_len _ (timerOk_runBM evs initBM rfl)
  · rw [renderBM_deps_ne u ob iv s hch]
    simp only [ht, hlive]
    simp only [List.erase_cons_head, List.nil_append]
    intro hmem
    simp only [List.mem_singleton] at hmem
    omega
  · rw [renderBM_deps_ne u ob iv s hch]
    exact (renderWS_fresh_cb_closes u s k hinv hk).1
  · rw [renderBM_deps_ne u ob iv s hch]
    simp only [ht, hlive]
    simp [List.erase_cons_head]
  · simp only [stepBM, ht, hlive]
    simp [List.erase_cons_head]
  · simp only [stepBM]
    simp [unmountWS, hk]

theorem c7_witness :
    (runBM [] initBM).liveTimers.length ≤ 1 ∧
    0 ∉ (renderBM "ws:b" 1 100 bmAfterRender).liveTimers ∧
    0 ∈ (renderBM "ws:b" 1 100 bmAfterRender).ws.closed ∧
    (renderBM "ws:b" 1 100 bmAfterRender).liveTimers.length ≤ 1 ∧
    (stepBM BEv.unmount bmAfterRender).liveTimers = [] ∧
    0 ∈ (stepBM BEv.unmount bmAfterRender).ws.closed :=
  c7_cleanup_every_exit [] bmAfterRender "ws:b" 1 100 0 0
    (by decide) (by decide) (by decide) (by decide)

/-- Claim C8: re-rendering `useWebSocket` with the dependency pair
`(url, onMessage)` unchanged is idempotent — the effect does not re-run, no
socket is closed or created, and the existing one is returned — while a
changed callback reference or url closes the existing socket and creates a
fresh, distinct one recorded under the new activation key. -/
theorem c8_activation_key (url : String) (cb : Nat) (s : WSState) (i : Nat)
    (hlt : socketLtB s = true) :
    (s.deps = some (url, cb) → renderWS url cb s = (s, s.socket)) ∧
    (s.deps ≠ some (url, cb) → s.socket = some i →
      i ∈ (renderWS url cb s).1.closed ∧
      (renderWS url cb s).1.socket = some s.nextId ∧
      (renderWS url cb s).1.socket ≠ some i ∧
      (renderWS url cb s).1.deps = some (url, cb)) := by
  constructor
  · intro hd
    unfold renderWS
    rw [if_pos hd]
  · intro hd hsock
    have hlt2 : i < s.nextId := by
      unfold socketLtB at hlt
      rw [hsock] at hlt
      exact of_decide_eq_true hlt
    unfold renderWS
    rw [if_neg hd]
    refine ⟨by simp [hsock], rfl, fun hcontra => ?_, rfl⟩
    have h3 : s.nextId = i := Option.some.inj hcontra
    omega

theorem c8_witness :
    (wsA.deps = some ("ws:a", 0) → renderWS "ws:a" 0 wsA = (wsA, wsA.socket)) ∧
    (wsA.deps ≠ some ("ws:a", 0) → wsA.socket = some 0 →
      0 ∈ (renderWS "ws:a" 0 wsA).1.closed ∧
      (renderWS "ws:a" 0 wsA).1.socket = some wsA.nextId ∧
      (renderWS "ws:a" 0 wsA).1.socket ≠ some 0 ∧
      (renderWS "ws:a" 0 wsA).1.deps = some ("ws:a", 0)) :=
  c8_activation_key "ws:a" 0 wsA 0 (by decide)

/-- Claim C9: a re-render of `useBatchedMessages` — with any new url,
`onBatchMessage` reference or interval — leaves `batchRef.current` and the
list of delivered batches untouched (the change itself neither drops nor
flushes buffered messages), and in the concrete run below a message received
before a full reconfiguration shares one delivered batch with a message
received on the new connection afterwards. -/
theorem c9_reconfig_preserves_buffer (u : String) (ob iv : Nat) (s : BMState) :
    (renderBM u ob iv s).buffer = s.buffer ∧
    (renderBM u ob iv s).delivered = s.delivered ∧
    (runBM [BEv.render "ws:a" 0 100, BEv.recv 1, BEv.render "ws:b" 1 200,
            BEv.recv 2, BEv.tick] initBM).delivered = [[1, 2]] := by
  refine ⟨?_, ?_, by decide⟩
  · by_cases hd : s.intervalDeps = some (iv, ob)
    · rw [renderBM_deps_eq u ob iv s hd]
    · rw [renderBM_deps_ne u ob iv s hd]
  · by_cases hd : s.intervalDeps = some (iv, ob)
    · rw [renderBM_deps_eq u ob iv s hd]
    · rw [renderBM_deps_ne u ob iv s hd]

/-- Claim C10: `useWebSocket` returns `socketRef.current` as captured before
the effect runs: on the first activating render it returns `null`, and on
any render whose effect creates a new socket the returned handle is not that
socket. -/
theorem c10_returns_previous_socket (url : String) (cb : Nat) (s : WSState)
    (hlt : socketLtB s = true) (hd : s.deps ≠ some (url, cb)) :
    (renderWS url cb initWS).2 = none ∧
    (renderWS url cb s).2 ≠ (renderWS url cb s).1.socket := by
  constructor
  · unfold renderWS
    rw [if_neg (by simp [initWS] : initWS.deps ≠ some (url, cb))]
    rfl
  · unfold renderWS
    rw [if_neg hd]
    show s.socket ≠ some s.nextId
    cases hsock : s.socket with
    | none => simp
    | some j =>
      have hj : j < s.nextId := by
        unfold socketLtB at hlt
        rw [hsock] at hlt
        exact of_decide_eq_true hlt
      intro hcontra
      have h3 : j = s.nextId := Option.some.inj hcontra
      omega

theorem c10_witness :
    (renderWS "ws:b" 1 initWS).2 = none ∧
    (renderWS "ws:b" 1 wsA).2 ≠ (renderWS "ws:b" 1 wsA).1.socket :=
  c10_returns_previous_socket "ws:b" 1 wsA (by decide) (by decide)
